import Mathlib

/-!
Verification of the `ralph-tui` process package: the log ring buffer
(`RingBuffer` and its operations, from the Go source) and the process
supervisor (`Manager`).  Go slices become Lean lists, Go `int` becomes
`Int`/`Nat` as appropriate, and the fallible system calls of the
supervisor are modelled by an explicit environment of outcomes.
-/

namespace RalphTui

/-! ## Ring buffer (`ringbuffer.go`) -/

/-- State of the fixed-size circular buffer for log lines.  The mutex is a
concurrency artefact and has no functional content. -/
structure RingBuffer where
  lines : List String
  capacity : Nat
  head : Nat
  size : Nat
deriving Repr, DecidableEq

/-- Translation of `NewRingBuffer`: a non-positive capacity is coerced to
the default 1000, storage is allocated zeroed (empty strings). -/
def normCapacity (capacity : Int) : Nat :=
  if capacity ≤ 0 then 1000 else capacity.toNat

def NewRingBuffer (capacity : Int) : RingBuffer :=
  { lines := List.replicate (normCapacity capacity) ""
    capacity := normCapacity capacity
    head := 0
    size := 0 }

/-- Translation of `RingBuffer.Write`: store at the cursor, advance the
cursor modulo capacity, grow the occupancy count up to capacity. -/
def RingBuffer.Write (rb : RingBuffer) (line : String) : RingBuffer :=
  { rb with
    lines := rb.lines.set rb.head line
    head := (rb.head + 1) % rb.capacity
    size := if rb.size < rb.capacity then rb.size + 1 else rb.size }

/-- Translation of `RingBuffer.ReadAll`: chronological snapshot.  When the
buffer is not yet full the data is the contiguous prefix of the storage;
when it is full the oldest element sits at the cursor and the sequence
wraps from there. -/
def RingBuffer.ReadAll (rb : RingBuffer) : List String :=
  if rb.size = 0 then []
  else if rb.size < rb.capacity then rb.lines.take rb.size
  else rb.lines.drop rb.head ++ rb.lines.take rb.head

/-- Translation of `RingBuffer.Size`. -/
def RingBuffer.Size (rb : RingBuffer) : Nat :=
  rb.size

/-- Translation of `RingBuffer.Clear`: reset cursor and occupancy and
reallocate the storage. -/
def RingBuffer.Clear (rb : RingBuffer) : RingBuffer :=
  { rb with
    lines := List.replicate rb.capacity ""
    head := 0
    size := 0 }

/-- Writing a whole sequence of lines, oldest first. -/
def RingBuffer.writeAll (rb : RingBuffer) (ls : List String) : RingBuffer :=
  ls.foldl RingBuffer.Write rb

/-- Well-formedness of a buffer state: the storage has exactly `capacity`
cells, the cursor is in range, occupancy never exceeds capacity, and while
the buffer is not yet full the cursor equals the occupancy (writes so far
filled a prefix). -/
def RingBuffer.WF (rb : RingBuffer) : Prop :=
  rb.lines.length = rb.capacity ∧
  rb.head < rb.capacity ∧
  rb.size ≤ rb.capacity ∧
  (rb.size < rb.capacity → rb.head = rb.size)

theorem normCapacity_pos (c : Int) : 0 < normCapacity c := by
  unfold normCapacity
  by_cases h : c ≤ 0
  · simp [h]
  · simp [h]
    omega

theorem wf_new (c : Int) : (NewRingBuffer c).WF := by
  refine ⟨by simp [NewRingBuffer], ?_, Nat.zero_le _, fun _ => rfl⟩
  exact normCapacity_pos c

theorem readAll_new (c : Int) : (NewRingBuffer c).ReadAll = [] := by
  unfold NewRingBuffer RingBuffer.ReadAll
  simp

theorem capacity_write (rb : RingBuffer) (l : String) :
    (rb.Write l).capacity = rb.capacity := rfl

theorem wf_write (rb : RingBuffer) (l : String) (h : rb.WF) :
    (rb.Write l).WF := by
  obtain ⟨hlen, hhead, hsz, hrel⟩ := h
  have hcap : 0 < rb.capacity := Nat.lt_of_le_of_lt (Nat.zero_le _) hhead
  refine ⟨by simpa [RingBuffer.Write] using hlen, ?_, ?_, ?_⟩
  · exact Nat.mod_lt _ hcap
  · by_cases hfull : rb.size < rb.capacity <;>
      simp [RingBuffer.Write, hfull] <;> omega
  · intro hlt
    by_cases hfull : rb.size < rb.capacity
    · have hh := hrel hfull
      simp only [RingBuffer.Write, if_pos hfull] at hlt ⊢
      rw [hh]
      exact Nat.mod_eq_of_lt hlt
    · simp only [RingBuffer.Write, if_neg hfull] at hlt
      omega

theorem wf_clear (rb : RingBuffer) (h : rb.WF) : rb.Clear.WF := by
  obtain ⟨hlen, hhead, hsz, hrel⟩ := h
  have hcap : 0 < rb.capacity := Nat.lt_of_le_of_lt (Nat.zero_le _) hhead
  exact ⟨by simp [RingBuffer.Clear], hcap, Nat.zero_le _, fun _ => rfl⟩

theorem readAll_clear (rb : RingBuffer) : rb.Clear.ReadAll = [] := by
  simp [RingBuffer.Clear, RingBuffer.ReadAll]

theorem size_clear (rb : RingBuffer) : rb.Clear.Size = 0 := rfl

theorem length_readAll (rb : RingBuffer) (h : rb.WF) :
    rb.ReadAll.length = rb.size := by
  obtain ⟨hlen, hhead, hsz, hrel⟩ := h
  unfold RingBuffer.ReadAll
  by_cases h0 : rb.size = 0
  · simp [h0]
  · by_cases hfull : rb.size < rb.capacity
    · simp [h0, hfull]
      omega
    · simp [h0, hfull]
      omega

theorem take_set_succ {α : Type} (xs : List α) (n : Nat) (a : α)
    (h : n < xs.length) :
    (xs.set n a).take (n + 1) = xs.take n ++ [a] := by
  rw [List.set_eq_take_cons_drop a h]
  rw [List.take_append_eq_append_take]
  have h1 : (xs.take n).length = n := by simp; omega
  rw [h1]
  have h2 : n + 1 - n = 1 := by omega
  rw [h2]
  have h3 : (xs.take n).take (n + 1) = xs.take n := by
    apply List.take_of_length_le
    omega
  rw [h3]
  rfl

theorem readAll_write (rb : RingBuffer) (l : String) (h : rb.WF) :
    (rb.Write l).ReadAll = (rb.ReadAll ++ [l]).rtake rb.capacity := by
  obtain ⟨hlen, hhead, hsz, hrel⟩ := h
  have hcap : 0 < rb.capacity := Nat.lt_of_le_of_lt (Nat.zero_le _) hhead
  by_cases hfull : rb.size < rb.capacity
  · -- buffer not yet full: the cursor equals the occupancy
    have hh : rb.head = rb.size := hrel hfull
    have hra : rb.ReadAll = rb.lines.take rb.size := by
      unfold RingBuffer.ReadAll
      by_cases h0 : rb.size = 0
      · simp [h0]
      · simp [h0, hfull]
    have hlenR : (rb.ReadAll ++ [l]).length = rb.size + 1 := by
      rw [hra]
      simp
      omega
    have hrt : (rb.ReadAll ++ [l]).rtake rb.capacity = rb.ReadAll ++ [l] := by
      unfold List.rtake
      rw [hlenR]
      have : rb.size + 1 - rb.capacity = 0 := by omega
      rw [this, List.drop_zero]
    rw [hrt, hra]
    by_cases h2 : rb.size + 1 < rb.capacity
    · -- still not full after the write
      have hra2 : (rb.Write l).ReadAll = (rb.Write l).lines.take ((rb.Write l).size) := by
        unfold RingBuffer.ReadAll
        have hs : (rb.Write l).size = rb.size + 1 := by
          simp [RingBuffer.Write, hfull]
        simp [hs, capacity_write]
        intro hc
        omega
      have hs : (rb.Write l).size = rb.size + 1 := by
        simp [RingBuffer.Write, hfull]
      rw [hra2, hs]
      show (rb.lines.set rb.head l).take (rb.size + 1) = rb.lines.take rb.size ++ [l]
      rw [hh]
      exact take_set_succ rb.lines rb.size l (by omega)
    · -- the write fills the buffer exactly; cursor wraps to 0
      have hse : rb.size + 1 = rb.capacity := by omega
      have hs : (rb.Write l).size = rb.capacity := by
        simp [RingBuffer.Write, hfull]
        omega
      have hhd : (rb.Write l).head = 0 := by
        show (rb.head + 1) % rb.capacity = 0
        rw [hh]
        rw [hse]
        exact Nat.mod_self _
      have : (rb.Write l).ReadAll =
          (rb.Write l).lines.drop 0 ++ (rb.Write l).lines.take 0 := by
        unfold RingBuffer.ReadAll
        rw [hhd, hs, capacity_write]
        simp
        omega
      rw [this]
      simp only [List.drop_zero, List.take_zero, List.append_nil]
      show rb.lines.set rb.head l = rb.lines.take rb.size ++ [l]
      rw [List.set_eq_take_cons_drop l (by omega : rb.head < rb.lines.length)]
      rw [hh]
      have : rb.lines.drop (rb.size + 1) = [] := by
        apply List.drop_eq_nil_of_le
        omega
      rw [this]
  · -- buffer already full: the oldest entry (at the cursor) is evicted
    have hse : rb.size = rb.capacity := by omega
    have h0 : ¬ rb.size = 0 := by omega
    have hra : rb.ReadAll = rb.lines.drop rb.head ++ rb.lines.take rb.head := by
      unfold RingBuffer.ReadAll
      simp [h0, hfull]
    have hlenR : rb.ReadAll.length = rb.capacity := by
      rw [hra]
      simp
      omega
    have hrt : (rb.ReadAll ++ [l]).rtake rb.capacity =
        rb.ReadAll.drop 1 ++ [l] := by
      unfold List.rtake
      have hl1 : (rb.ReadAll ++ [l]).length - rb.capacity = 1 := by
        simp [hlenR]
      rw [hl1]
      rw [List.drop_append_eq_append_drop]
      rw [hlenR]
      have : 1 - rb.capacity = 0 := by omega
      rw [this, List.drop_zero]
    rw [hrt, hra]
    have hdrop1 : (rb.lines.drop rb.head ++ rb.lines.take rb.head).drop 1 =
        rb.lines.drop (rb.head + 1) ++ rb.lines.take rb.head := by
      rw [List.drop_append_eq_append_drop]
      have hld : (rb.lines.drop rb.head).length = rb.capacity - rb.head := by
        simp [hlen]
      have : 1 - (rb.lines.drop rb.head).length = 0 := by omega
      rw [this, List.drop_zero, List.drop_drop]
    rw [hdrop1]
    have hs : (rb.Write l).size = rb.capacity := by
      simp [RingBuffer.Write, hfull]
      omega
    have hnotfull : ¬ (rb.Write l).size < (rb.Write l).capacity := by
      rw [hs, capacity_write]
      omega
    have hral : (rb.Write l).ReadAll =
        (rb.Write l).lines.drop ((rb.Write l).head) ++
          (rb.Write l).lines.take ((rb.Write l).head) := by
      unfold RingBuffer.ReadAll
      rw [if_neg (by rw [hs]; omega), if_neg hnotfull]
    rw [hral]
    by_cases hh2 : rb.head + 1 < rb.capacity
    · have hhd : (rb.Write l).head = rb.head + 1 := by
        show (rb.head + 1) % rb.capacity = rb.head + 1
        exact Nat.mod_eq_of_lt hh2
      rw [hhd, List.append_assoc]
      show (rb.lines.set rb.head l).drop (rb.head + 1) ++
            (rb.lines.set rb.head l).take (rb.head + 1) =
          rb.lines.drop (rb.head + 1) ++ (rb.lines.take rb.head ++ [l])
      have hd : (rb.lines.set rb.head l).drop (rb.head + 1) =
          rb.lines.drop (rb.head + 1) := by
        rw [List.drop_set]
        rw [if_pos (by omega)]
      rw [hd, take_set_succ rb.lines rb.head l (by omega)]
    · have hhe : rb.head + 1 = rb.capacity := by omega
      have hhd : (rb.Write l).head = 0 := by
        show (rb.head + 1) % rb.capacity = 0
        rw [hhe]
        exact Nat.mod_self _
      rw [hhd, List.append_assoc]
      simp only [List.drop_zero, List.take_zero, List.append_nil]
      show rb.lines.set rb.head l =
          rb.lines.drop (rb.head + 1) ++ (rb.lines.take rb.head ++ [l])
      have : rb.lines.drop (rb.head + 1) = [] := by
        apply List.drop_eq_nil_of_le
        omega
      rw [this, List.nil_append]
      rw [List.set_eq_take_cons_drop l (by omega : rb.head < rb.lines.length)]
      have : rb.lines.drop (rb.head + 1) = [] := by
        apply List.drop_eq_nil_of_le
        omega
      rw [this]

theorem rtake_append_rtake {α : Type} (n : Nat) (xs ys : List α) :
    (xs.rtake n ++ ys).rtake n = (xs ++ ys).rtake n := by
  rw [List.rtake_eq_reverse_take_reverse (xs.rtake n ++ ys) n,
    List.rtake_eq_reverse_take_reverse (xs ++ ys) n,
    List.reverse_append, List.reverse_append,
    List.rtake_eq_reverse_take_reverse xs n, List.reverse_reverse]
  congr 1
  rw [List.take_append_eq_append_take, List.take_append_eq_append_take]
  congr 1
  rw [List.take_take]
  congr 1
  omega

theorem capacity_writeAll (rb : RingBuffer) (ls : List String) :
    (rb.writeAll ls).capacity = rb.capacity := by
  induction ls generalizing rb with
  | nil => rfl
  | cons l ls ih =>
    show ((rb.Write l).writeAll ls).capacity = rb.capacity
    rw [ih]
    rfl

theorem wf_writeAll (rb : RingBuffer) (ls : List String) (h : rb.WF) :
    (rb.writeAll ls).WF := by
  induction ls generalizing rb with
  | nil => exact h
  | cons l ls ih => exact ih _ (wf_write rb l h)

theorem rtake_of_length_le {α : Type} (n : Nat) (xs : List α)
    (h : xs.length ≤ n) : xs.rtake n = xs := by
  unfold List.rtake
  have : xs.length - n = 0 := by omega
  rw [this, List.drop_zero]

theorem readAll_writeAll (ls : List String) (rb : RingBuffer) (h : rb.WF) :
    (rb.writeAll ls).ReadAll = (rb.ReadAll ++ ls).rtake rb.capacity := by
  induction ls generalizing rb with
  | nil =>
    have h1 : rb.writeAll [] = rb := rfl
    rw [h1, List.append_nil]
    refine (rtake_of_length_le _ _ ?_).symm
    rw [length_readAll rb h]
    exact h.2.2.1
  | cons l ls ih =>
    show ((rb.Write l).writeAll ls).ReadAll = (rb.ReadAll ++ l :: ls).rtake rb.capacity
    rw [ih (rb.Write l) (wf_write rb l h), capacity_write]
    rw [readAll_write rb l h]
    rw [rtake_append_rtake]
    rw [List.append_assoc]
    rfl

/-- C1: for every capacity N ≥ 1, writing a sequence of k lines into a
fresh ring buffer of capacity N and then reading yields exactly the last
min(k, N) lines in write order: all k lines when k ≤ N, the last N lines
when k > N.  `List.rtake n` is exactly "the last n elements". -/
theorem claim_C1_ring_readAll_last (N : Int) (hN : 1 ≤ N) (ls : List String) :
    ((NewRingBuffer N).writeAll ls).ReadAll = ls.rtake N.toNat ∧
    ((NewRingBuffer N).writeAll ls).ReadAll.length = min ls.length N.toNat := by
  have hcap : (NewRingBuffer N).capacity = N.toNat := by
    show normCapacity N = N.toNat
    unfold normCapacity
    rw [if_neg (by omega)]
  have h1 := readAll_writeAll ls (NewRingBuffer N) (wf_new N)
  rw [readAll_new, List.nil_append, hcap] at h1
  refine ⟨h1, ?_⟩
  rw [h1]
  unfold List.rtake
  simp
  omega

theorem claim_C1_ring_readAll_last_witness :
    (1 : Int) ≤ 2 ∧
    ((NewRingBuffer 2).writeAll ["a", "b", "c"]).ReadAll =
      (["a", "b", "c"] : List String).rtake (2 : Int).toNat ∧
    ((NewRingBuffer 2).writeAll ["a", "b", "c"]).ReadAll = ["b", "c"] :=
  ⟨by decide, (claim_C1_ring_readAll_last 2 (by decide) ["a", "b", "c"]).1, rfl⟩

/-- C8: the well-formedness invariant (in particular `size ≤ capacity`)
holds after construction and is preserved by `Write` and `Clear` (`ReadAll`
and `Size` are observers and do not change the state); once the buffer is
full, each `Write` keeps the occupancy at capacity and evicts exactly the
oldest stored line; `Clear` resets the occupancy to 0 and a subsequent
`ReadAll` returns the empty sequence. -/
theorem claim_C8_ring_invariant :
    (∀ c : Int, (NewRingBuffer c).WF) ∧
    (∀ (rb : RingBuffer) (l : String), rb.WF →
      (rb.Write l).WF ∧ (rb.Write l).Size ≤ (rb.Write l).capacity) ∧
    (∀ rb : RingBuffer, rb.WF → rb.Clear.WF) ∧
    (∀ (rb : RingBuffer) (l : String), rb.WF → rb.Size = rb.capacity →
      (rb.Write l).Size = rb.capacity ∧
      (rb.Write l).ReadAll = rb.ReadAll.drop 1 ++ [l]) ∧
    (∀ rb : RingBuffer, rb.Clear.Size = 0 ∧ rb.Clear.ReadAll = []) := by
  refine ⟨wf_new, ?_, wf_clear, ?_, fun rb => ⟨size_clear rb, readAll_clear rb⟩⟩
  · intro rb l h
    exact ⟨wf_write rb l h, (wf_write rb l h).2.2.1⟩
  · intro rb l h hfull
    have hcap : 0 < rb.capacity := Nat.lt_of_le_of_lt (Nat.zero_le _) h.2.1
    have hsz : (rb.Write l).Size = rb.capacity := by
      show (if rb.size < rb.capacity then rb.size + 1 else rb.size) = rb.capacity
      rw [if_neg (by exact fun hc => absurd hfull (Nat.ne_of_lt hc))]
      exact hfull
    refine ⟨hsz, ?_⟩
    rw [readAll_write rb l h]
    have hlenR : rb.ReadAll.length = rb.capacity := by
      rw [length_readAll rb h]
      exact hfull
    unfold List.rtake
    have hl1 : (rb.ReadAll ++ [l]).length - rb.capacity = 1 := by
      simp [hlenR]
    rw [hl1, List.drop_append_eq_append_drop, hlenR]
    have : 1 - rb.capacity = 0 := by omega
    rw [this, List.drop_zero]

theorem claim_C8_ring_invariant_witness :
    ((NewRingBuffer 2).writeAll ["a", "b"]).WF ∧
    ((NewRingBuffer 2).writeAll ["a", "b"]).Size =
      ((NewRingBuffer 2).writeAll ["a", "b"]).capacity ∧
    (((NewRingBuffer 2).writeAll ["a", "b"]).Write "c").Size =
      ((NewRingBuffer 2).writeAll ["a", "b"]).capacity ∧
    (((NewRingBuffer 2).writeAll ["a", "b"]).Write "c").ReadAll =
      ((NewRingBuffer 2).writeAll ["a", "b"]).ReadAll.drop 1 ++ ["c"] :=
  ⟨wf_writeAll _ _ (wf_new 2), rfl,
    claim_C8_ring_invariant.2.2.2.1 ((NewRingBuffer 2).writeAll ["a", "b"]) "c"
      (wf_writeAll _ _ (wf_new 2)) rfl⟩

/-- C9: constructing a ring buffer with any capacity c ≤ 0 yields exactly
the state a default (1000-capacity) construction yields, so every
subsequent operation behaves identically on both. -/
theorem claim_C9_ring_default_capacity (c : Int) (hc : c ≤ 0) :
    NewRingBuffer c = NewRingBuffer 1000 ∧
    (NewRingBuffer c).capacity = 1000 ∧
    (∀ ls : List String,
      (NewRingBuffer c).writeAll ls = (NewRingBuffer 1000).writeAll ls) := by
  have h : normCapacity c = 1000 := by
    unfold normCapacity
    rw [if_pos hc]
  have h2 : normCapacity 1000 = 1000 := by decide
  have heq : NewRingBuffer c = NewRingBuffer 1000 := by
    unfold NewRingBuffer
    rw [h, h2]
  exact ⟨heq, h, fun ls => by rw [heq]⟩

theorem claim_C9_ring_default_capacity_witness :
    (-5 : Int) ≤ 0 ∧ NewRingBuffer (-5) = NewRingBuffer 1000 :=
  ⟨by decide, (claim_C9_ring_default_capacity (-5) (by decide)).1⟩

/-! ## Process supervisor (`manager.go`)

The supervisor's behaviour depends on the operating system: signal sends
can succeed, fail with ESRCH ("no such process"), or fail otherwise, and
the process may or may not exit within the grace period.  These external
outcomes are collected in explicit environment records, and each operation
becomes a pure function of the supervisor state and the environment,
returning the new state, the list of signals it sent, and its result. -/

inductive Status
  | Idle
  | Running
  | Stopping
  | Stopped
  | Paused
deriving Repr, DecidableEq

/-- Translation of `Status.String`. -/
def Status.toName : Status → String
  | .Idle => "Idle"
  | .Running => "Running"
  | .Stopping => "Stopping"
  | .Stopped => "Stopped"
  | .Paused => "Paused"

/-- Child-process handle: `exec.Cmd` reduced to its observable content
here, the `Process` field (`none` until `cmd.Start()` succeeds). -/
structure Cmd where
  proc : Option Int
deriving Repr, DecidableEq

/-- Supervisor state: status, child handle (`none` models a nil `cmd`),
a generation counter standing for the identity of the current completion
channel (`doneChan` is replaced on each `Start`), the log buffer, and
whether an `onComplete` callback is registered. -/
structure Manager where
  status : Status
  cmd : Option Cmd
  doneGen : Nat
  logs : RingBuffer
  hasCallback : Bool
deriving Repr, DecidableEq

/-- Translation of `NewManager`. -/
def NewManager (bufferSize : Int) : Manager :=
  { status := Status.Idle
    cmd := none
    doneGen := 0
    logs := NewRingBuffer bufferSize
    hasCallback := false }

inductive Sig
  | term
  | intr
  | kill
deriving Repr, DecidableEq

def sigName : Sig → String
  | .term => "SIGTERM"
  | .intr => "SIGINT"
  | .kill => "SIGKILL"

/-- Where a signal was delivered: `group pgid` is `syscall.Kill(-pid, ...)`
(the stored integer is the negated process-group id actually passed),
`single pid` is `process.Signal`/`process.Kill`. -/
inductive SendTarget
  | group (pgid : Int)
  | single (pid : Int)
deriving Repr, DecidableEq

/-- Outcome of one signal delivery attempt. -/
inductive KillResult
  | ok
  | esrch
  | fail (msg : String)
deriving Repr, DecidableEq

/-- External outcomes a stop-family call can encounter, in program order:
the group send, the single-process fallback send, whether `doneChan` fires
within the grace period, the escalation group kill, and the single-process
fallback kill. -/
structure StopEnv where
  groupSend : KillResult
  procSend : KillResult
  doneWithinGrace : Bool
  groupKill : KillResult
  procKill : KillResult
deriving Repr, DecidableEq

/-- Result of a stop-family call: final state, signals sent in order,
the grace period used (seconds), and the returned error if any. -/
structure StopResult where
  state : Manager
  sends : List (SendTarget × Sig)
  graceSeconds : Nat
  res : Except String Unit
deriving Repr

/-- Shared tail of `Stop`/`StopImmediate` after a successful signal send:
wait on `doneChan` up to the grace period, and on timeout escalate to a
group `SIGKILL` with a single-process fallback. -/
def stopWait (grace : Nat) (m1 : Manager) (env : StopEnv) (pid : Int)
    (sends : List (SendTarget × Sig)) : StopResult :=
  if env.doneWithinGrace then ⟨m1, sends, grace, .ok ()⟩
  else
    let sK := sends ++ [(SendTarget.group (-pid), Sig.kill)]
    match env.groupKill with
    | KillResult.ok => ⟨m1, sK, grace, .error "process killed after timeout"⟩
    | KillResult.esrch => ⟨m1, sK, grace, .error "process killed after timeout"⟩
    | KillResult.fail _ =>
      let sK2 := sK ++ [(SendTarget.single pid, Sig.kill)]
      match env.procKill with
      | KillResult.fail e => ⟨m1, sK2, grace, .error ("failed to kill process: " ++ e)⟩
      | KillResult.ok => ⟨m1, sK2, grace, .error "process killed after timeout"⟩
      | KillResult.esrch => ⟨m1, sK2, grace, .error "process killed after timeout"⟩

/-- Common body of `Manager.Stop` (grace 5, SIGTERM) and
`Manager.StopImmediate` (grace 2, SIGINT), which are textually identical
in the source up to signal and timeout. -/
def stopCore (grace : Nat) (sig : Sig) (m : Manager) (env : StopEnv) : StopResult :=
  if m.status = Status.Running ∨ m.status = Status.Stopping then
    match m.cmd with
    | none => ⟨m, [], grace, .error "no process to stop"⟩
    | some c =>
      match c.proc with
      | none => ⟨m, [], grace, .error "no process to stop"⟩
      | some pid =>
        let m1 : Manager := { m with status := Status.Stopping }
        let s0 : List (SendTarget × Sig) := [(SendTarget.group (-pid), sig)]
        match env.groupSend with
        | KillResult.esrch => ⟨m1, s0, grace, .ok ()⟩
        | KillResult.ok => stopWait grace m1 env pid s0
        | KillResult.fail _ =>
          let s1 := s0 ++ [(SendTarget.single pid, sig)]
          match env.procSend with
          | KillResult.esrch => ⟨m1, s1, grace, .ok ()⟩
          | KillResult.fail e =>
            ⟨m1, s1, grace, .error ("failed to send " ++ sigName sig ++ ": " ++ e)⟩
          | KillResult.ok => stopWait grace m1 env pid s1
  else ⟨m, [], grace, .error "process not running"⟩

/-- Translation of `Manager.Stop`: SIGTERM, 5 second grace period. -/
def Manager.Stop (m : Manager) (env : StopEnv) : StopResult :=
  stopCore 5 Sig.term m env

/-- Translation of `Manager.StopImmediate`: SIGINT, 2 second grace. -/
def Manager.StopImmediate (m : Manager) (env : StopEnv) : StopResult :=
  stopCore 2 Sig.intr m env

/-- Tail of `Manager.Pause` after a successful send: like `stopWait`, but
every path that does not return a send failure records status `Paused`;
the fallback-kill failure path returns before the status update, leaving
status `Stopping`. -/
def pauseWait (m1 mP : Manager) (env : StopEnv) (pid : Int)
    (sends : List (SendTarget × Sig)) : StopResult :=
  if env.doneWithinGrace then ⟨mP, sends, 5, .ok ()⟩
  else
    let sK := sends ++ [(SendTarget.group (-pid), Sig.kill)]
    match env.groupKill with
    | KillResult.ok => ⟨mP, sK, 5, .error "process killed after timeout"⟩
    | KillResult.esrch => ⟨mP, sK, 5, .error "process killed after timeout"⟩
    | KillResult.fail _ =>
      let sK2 := sK ++ [(SendTarget.single pid, Sig.kill)]
      match env.procKill with
      | KillResult.fail e => ⟨m1, sK2, 5, .error ("failed to kill process: " ++ e)⟩
      | KillResult.ok => ⟨mP, sK2, 5, .error "process killed after timeout"⟩
      | KillResult.esrch => ⟨mP, sK2, 5, .error "process killed after timeout"⟩

/-- Translation of `Manager.Pause`: guard accepts only `Running`, the
missing-handle error is "no process to pause", and success paths
(including the ESRCH short-circuits) set status `Paused`. -/
def Manager.Pause (m : Manager) (env : StopEnv) : StopResult :=
  if m.status = Status.Running then
    match m.cmd with
    | none => ⟨m, [], 5, .error "no process to pause"⟩
    | some c =>
      match c.proc with
      | none => ⟨m, [], 5, .error "no process to pause"⟩
      | some pid =>
        let m1 : Manager := { m with status := Status.Stopping }
        let mP : Manager := { m with status := Status.Paused }
        let s0 : List (SendTarget × Sig) := [(SendTarget.group (-pid), Sig.term)]
        match env.groupSend with
        | KillResult.esrch => ⟨mP, s0, 5, .ok ()⟩
        | KillResult.ok => pauseWait m1 mP env pid s0
        | KillResult.fail _ =>
          let s1 := s0 ++ [(SendTarget.single pid, Sig.term)]
          match env.procSend with
          | KillResult.esrch => ⟨mP, s1, 5, .ok ()⟩
          | KillResult.fail e =>
            ⟨m1, s1, 5, .error ("failed to send SIGTERM: " ++ e)⟩
          | KillResult.ok => pauseWait m1 mP env pid s1
  else ⟨m, [], 5, .error "process not running"⟩

/-- External outcomes a `Start` call can encounter, in program order:
creating the stdout pipe, creating the stderr pipe, launching the process
(each `some e` is a failure with cause `e`), and the pid on success. -/
structure StartEnv where
  pid : Int
  stdoutPipeErr : Option String
  stderrPipeErr : Option String
  startErr : Option String
deriving Repr

/-- Result of `Start`: final state, returned error if any, the stream tags
of the collector tasks launched (empty when none were), and whether the
completion-watcher task was launched. -/
structure StartResult where
  state : Manager
  res : Except String Unit
  collectorTags : List String
  watcherStarted : Bool
deriving Repr

/-- Translation of `Manager.Start`.  After the guard, the source assigns a
fresh command (whose `Process` is still nil), sets status `Running` and
replaces `doneChan`; each failure branch resets status to `Idle` and
returns before any background task is launched; on success `Process` is
populated and the two collectors and the watcher are launched. -/
def Manager.Start (m : Manager) (env : StartEnv) : StartResult :=
  if m.status = Status.Running ∨ m.status = Status.Stopping then
    ⟨m, .error "process already running or stopping", [], false⟩
  else
    let m1 : Manager :=
      { m with cmd := some ⟨none⟩, status := Status.Running, doneGen := m.doneGen + 1 }
    match env.stdoutPipeErr with
    | some e =>
      ⟨{ m1 with status := Status.Idle },
        .error ("failed to create stdout pipe: " ++ e), [], false⟩
    | none =>
      match env.stderrPipeErr with
      | some e =>
        ⟨{ m1 with status := Status.Idle },
          .error ("failed to create stderr pipe: " ++ e), [], false⟩
      | none =>
        match env.startErr with
        | some e =>
          ⟨{ m1 with status := Status.Idle },
            .error ("failed to start process: " ++ e), [], false⟩
        | none =>
          ⟨{ m1 with cmd := some ⟨some env.pid⟩ }, .ok (), ["[OUT]", "[ERR]"], true⟩

/-- Translation of `Manager.IsRunning`. -/
def Manager.IsRunning (m : Manager) : Bool :=
  m.status == Status.Running

/-- Translation of `Manager.IsPaused`. -/
def Manager.IsPaused (m : Manager) : Bool :=
  m.status == Status.Paused

/-- Translation of `Manager.GetStatus`. -/
def Manager.GetStatus (m : Manager) : Status :=
  m.status

/-- Translation of `Manager.GetLogs`. -/
def Manager.GetLogs (m : Manager) : List String :=
  m.logs.ReadAll

/-- Translation of `Manager.ClearLogs`. -/
def Manager.ClearLogs (m : Manager) : Manager :=
  { m with logs := m.logs.Clear }

/-- Translation of `Manager.OnComplete`: registers the callback. -/
def Manager.OnComplete (m : Manager) : Manager :=
  { m with hasCallback := true }

/-- One line as the collector stores it: `fmt.Sprintf("%s %s", tag, line)`. -/
def taggedLine (tag line : String) : String :=
  tag ++ " " ++ line

/-- Translation of `Manager.streamOutput`: write each scanned line of the
stream into the ring buffer, tagged. -/
def Manager.streamOutput (logs : RingBuffer) (tag : String) (ls : List String) : RingBuffer :=
  ls.foldl (fun b l => b.Write (taggedLine tag l)) logs

/-- Events of one run's background tasks, in the order the completion
watcher's code produces them after the collectors' buffer writes. -/
inductive WEvent
  | logWrite (line : String)
  | collectorsFlushed
  | processWaited
  | lockAcquired
  | statusSet (st : Status)
  | lockReleased
  | donePublished
  | callbackInvoked
deriving Repr, DecidableEq

/-- Translation of the completion-watcher goroutine body in `Start`:
`wg.Wait()` (collectors flushed), `cmd.Wait()`, then under the lock set
status `Stopped` and copy the callback, release the lock, publish on
`doneChan`, and invoke the copied callback if one was registered. -/
def completionWatcher (m : Manager) : Manager × List WEvent :=
  ({ m with status := Status.Stopped },
    [WEvent.collectorsFlushed, WEvent.processWaited, WEvent.lockAcquired,
      WEvent.statusSet Status.Stopped, WEvent.lockReleased, WEvent.donePublished]
      ++ (if m.hasCallback then [WEvent.callbackInvoked] else []))

/-- One run's tail: the collectors drain the streams into the log buffer
(`writes` is the interleaving, already tagged, of the two collectors'
writes), then the completion watcher runs. -/
def runCompletion (m : Manager) (writes : List String) : Manager × List WEvent :=
  let m1 : Manager := { m with logs := m.logs.writeAll writes }
  ((completionWatcher m1).1,
    writes.map WEvent.logWrite ++ (completionWatcher m1).2)

def isLogWrite : WEvent → Bool
  | WEvent.logWrite _ => true
  | _ => false

def isCollectorsFlushed : WEvent → Bool
  | WEvent.collectorsFlushed => true
  | _ => false

def isStatusSetStopped : WEvent → Bool
  | WEvent.statusSet st => st == Status.Stopped
  | _ => false

def isLockReleased : WEvent → Bool
  | WEvent.lockReleased => true
  | _ => false

def isDonePublished : WEvent → Bool
  | WEvent.donePublished => true
  | _ => false

def isCallbackInvoked : WEvent → Bool
  | WEvent.callbackInvoked => true
  | _ => false

/-- Strict temporal ordering on a trace: every event satisfying `p` occurs
before every event satisfying `q`. -/
def Precedes (tr : List WEvent) (p q : WEvent → Bool) : Prop :=
  ∀ i j : Fin tr.length,
    p (tr.get i) = true → q (tr.get j) = true → (i : Nat) < (j : Nat)

/-- Substring containment on strings, for "error containing …" claims. -/
def strContains (s pat : String) : Prop :=
  pat.data <:+: s.data

instance (s pat : String) : Decidable (strContains s pat) :=
  List.decidableInfix pat.data s.data

theorem all_false_append {p : WEvent → Bool} {a b : List WEvent}
    (ha : ∀ e ∈ a, p e = false) (hb : ∀ e ∈ b, p e = false) :
    ∀ e ∈ a ++ b, p e = false := by
  intro e he
  rcases List.mem_append.mp he with h | h
  · exact ha e h
  · exact hb e h

theorem all_false_map_logWrite {q : WEvent → Bool}
    (h : ∀ l : String, q (WEvent.logWrite l) = false) (writes : List String) :
    ∀ e ∈ writes.map WEvent.logWrite, q e = false := by
  intro e he
  obtain ⟨l, _, rfl⟩ := List.mem_map.mp he
  exact h l

theorem precedes_append (a b : List WEvent) (p q : WEvent → Bool)
    (ha : ∀ e ∈ a, q e = false) (hb : ∀ e ∈ b, p e = false) :
    Precedes (a ++ b) p q := by
  intro i j hp hq
  rw [List.get_eq_getElem] at hp hq
  have hia : (i : Nat) < a.length := by
    by_contra hge
    have hle : a.length ≤ (i : Nat) := Nat.le_of_not_lt hge
    have hblt : (i : Nat) - a.length < b.length := by
      have hi : (i : Nat) < a.length + b.length := by
        simpa using i.isLt
      omega
    rw [List.getElem_append_right hle] at hp
    have hmem := hb _ (List.getElem_mem hblt)
    rw [hmem] at hp
    exact Bool.noConfusion hp
  have hja : a.length ≤ (j : Nat) := by
    by_contra hlt
    have hjl : (j : Nat) < a.length := Nat.lt_of_not_le hlt
    rw [List.getElem_append_left hjl] at hq
    have hmem := ha _ (List.getElem_mem hjl)
    rw [hmem] at hq
    exact Bool.noConfusion hq
  omega

/-- C6: within one run, every collector write lands in the log buffer
before the completion watcher sets status `Stopped` and before it
publishes on the completion channel; a callback registered via
`OnComplete` is invoked exactly once, after the status is already
`Stopped` (so `GetStatus` reports `Stopped`), after the lock is released,
and after the completion signal is published. -/
theorem claim_C6_completion_ordering (m : Manager) (writes : List String) :
    (runCompletion (Manager.OnComplete m) writes).1.GetStatus = Status.Stopped ∧
    (runCompletion (Manager.OnComplete m) writes).1.logs = m.logs.writeAll writes ∧
    ((runCompletion (Manager.OnComplete m) writes).2.filter isCallbackInvoked).length = 1 ∧
    Precedes (runCompletion (Manager.OnComplete m) writes).2 isLogWrite isStatusSetStopped ∧
    Precedes (runCompletion (Manager.OnComplete m) writes).2 isLogWrite isDonePublished ∧
    Precedes (runCompletion (Manager.OnComplete m) writes).2 isCollectorsFlushed isStatusSetStopped ∧
    Precedes (runCompletion (Manager.OnComplete m) writes).2 isStatusSetStopped isDonePublished ∧
    Precedes (runCompletion (Manager.OnComplete m) writes).2 isStatusSetStopped isCallbackInvoked ∧
    Precedes (runCompletion (Manager.OnComplete m) writes).2 isLockReleased isCallbackInvoked ∧
    Precedes (runCompletion (Manager.OnComplete m) writes).2 isDonePublished isCallbackInvoked := by
  have htr : (runCompletion (Manager.OnComplete m) writes).2 =
      writes.map WEvent.logWrite ++
        [WEvent.collectorsFlushed, WEvent.processWaited, WEvent.lockAcquired,
          WEvent.statusSet Status.Stopped, WEvent.lockReleased, WEvent.donePublished,
          WEvent.callbackInvoked] := by
    simp [runCompletion, completionWatcher, Manager.OnComplete]
  have hmapLW : ∀ q : WEvent → Bool, (∀ l : String, q (WEvent.logWrite l) = false) →
      ∀ e ∈ writes.map WEvent.logWrite, q e = false :=
    fun q hq => all_false_map_logWrite hq writes
  refine ⟨rfl, rfl, ?_, ?_, ?_, ?_, ?_, ?_, ?_, ?_⟩
  · rw [htr, List.filter_append]
    have h1 : (writes.map WEvent.logWrite).filter isCallbackInvoked = [] := by
      rw [List.filter_eq_nil_iff]
      intro e he
      obtain ⟨l, _, rfl⟩ := List.mem_map.mp he
      simp [isCallbackInvoked]
    rw [h1]
    rfl
  · rw [htr]
    exact precedes_append _ _ _ _ (hmapLW _ (fun l => rfl)) (by decide)
  · rw [htr]
    exact precedes_append _ _ _ _ (hmapLW _ (fun l => rfl)) (by decide)
  · rw [htr]
    have hsplit : writes.map WEvent.logWrite ++
        [WEvent.collectorsFlushed, WEvent.processWaited, WEvent.lockAcquired,
          WEvent.statusSet Status.Stopped, WEvent.lockReleased, WEvent.donePublished,
          WEvent.callbackInvoked] =
        (writes.map WEvent.logWrite ++
          [WEvent.collectorsFlushed, WEvent.processWaited, WEvent.lockAcquired]) ++
          [WEvent.statusSet Status.Stopped, WEvent.lockReleased, WEvent.donePublished,
            WEvent.callbackInvoked] := by
      rw [List.append_assoc]
      rfl
    rw [hsplit]
    exact precedes_append _ _ _ _
      (all_false_append (hmapLW _ (fun l => rfl)) (by decide)) (by decide)
  · rw [htr]
    have hsplit : writes.map WEvent.logWrite ++
        [WEvent.collectorsFlushed, WEvent.processWaited, WEvent.lockAcquired,
          WEvent.statusSet Status.Stopped, WEvent.lockReleased, WEvent.donePublished,
          WEvent.callbackInvoked] =
        (writes.map WEvent.logWrite ++
          [WEvent.collectorsFlushed, WEvent.processWaited, WEvent.lockAcquired,
            WEvent.statusSet Status.Stopped, WEvent.lockReleased]) ++
          [WEvent.donePublished, WEvent.callbackInvoked] := by
      rw [List.append_assoc]
      rfl
    rw [hsplit]
    exact precedes_append _ _ _ _
      (all_false_append (hmapLW _ (fun l => rfl)) (by decide)) (by decide)
  · rw [htr]
    have hsplit : writes.map WEvent.logWrite ++
        [WEvent.collectorsFlushed, WEvent.processWaited, WEvent.lockAcquired,
          WEvent.statusSet Status.Stopped, WEvent.lockReleased, WEvent.donePublished,
          WEvent.callbackInvoked] =
        (writes.map WEvent.logWrite ++
          [WEvent.collectorsFlushed, WEvent.processWaited, WEvent.lockAcquired,
            WEvent.statusSet Status.Stopped, WEvent.lockReleased, WEvent.donePublished]) ++
          [WEvent.callbackInvoked] := by
      rw [List.append_assoc]
      rfl
    rw [hsplit]
    exact precedes_append _ _ _ _
      (all_false_append (hmapLW _ (fun l => rfl)) (by decide)) (by decide)
  · rw [htr]
    have hsplit : writes.map WEvent.logWrite ++
        [WEvent.collectorsFlushed, WEvent.processWaited, WEvent.lockAcquired,
          WEvent.statusSet Status.Stopped, WEvent.lockReleased, WEvent.donePublished,
          WEvent.callbackInvoked] =
        (writes.map WEvent.logWrite ++
          [WEvent.collectorsFlushed, WEvent.processWaited, WEvent.lockAcquired,
            WEvent.statusSet Status.Stopped, WEvent.lockReleased, WEvent.donePublished]) ++
          [WEvent.callbackInvoked] := by
      rw [List.append_assoc]
      rfl
    rw [hsplit]
    exact precedes_append _ _ _ _
      (all_false_append (hmapLW _ (fun l => rfl)) (by decide)) (by decide)
  · rw [htr]
    have hsplit : writes.map WEvent.logWrite ++
        [WEvent.collectorsFlushed, WEvent.processWaited, WEvent.lockAcquired,
          WEvent.statusSet Status.Stopped, WEvent.lockReleased, WEvent.donePublished,
          WEvent.callbackInvoked] =
        (writes.map WEvent.logWrite ++
          [WEvent.collectorsFlushed, WEvent.processWaited, WEvent.lockAcquired,
            WEvent.statusSet Status.Stopped, WEvent.lockReleased, WEvent.donePublished]) ++
          [WEvent.callbackInvoked] := by
      rw [List.append_assoc]
      rfl
    rw [hsplit]
    exact precedes_append _ _ _ _
      (all_false_append (hmapLW _ (fun l => rfl)) (by decide)) (by decide)

theorem stopCore_guarded (grace : Nat) (sig : Sig) (m : Manager) (env : StopEnv)
    (pid : Int)
    (hst : m.status = Status.Running ∨ m.status = Status.Stopping)
    (hcmd : m.cmd = some ⟨some pid⟩) :
    stopCore grace sig m env =
      (match env.groupSend with
        | KillResult.esrch =>
          ⟨{ m with status := Status.Stopping },
            [(SendTarget.group (-pid), sig)], grace, Except.ok ()⟩
        | KillResult.ok =>
          stopWait grace { m with status := Status.Stopping } env pid
            [(SendTarget.group (-pid), sig)]
        | KillResult.fail _ =>
          match env.procSend with
          | KillResult.esrch =>
            ⟨{ m with status := Status.Stopping },
              [(SendTarget.group (-pid), sig), (SendTarget.single pid, sig)],
              grace, Except.ok ()⟩
          | KillResult.fail e =>
            ⟨{ m with status := Status.Stopping },
              [(SendTarget.group (-pid), sig), (SendTarget.single pid, sig)],
              grace, Except.error ("failed to send " ++ sigName sig ++ ": " ++ e)⟩
          | KillResult.ok =>
            stopWait grace { m with status := Status.Stopping } env pid
              [(SendTarget.group (-pid), sig), (SendTarget.single pid, sig)]) := by
  unfold stopCore
  rw [if_pos hst, hcmd]
  rfl

theorem stopWait_grace (grace : Nat) (m1 : Manager) (env : StopEnv) (pid : Int)
    (s : List (SendTarget × Sig)) :
    (stopWait grace m1 env pid s).graceSeconds = grace := by
  unfold stopWait
  by_cases hd : env.doneWithinGrace = true
  · simp [hd]
  · simp [hd]
    cases env.groupKill
    all_goals simp
    cases env.procKill
    all_goals simp

theorem stopWait_sends_extend (grace : Nat) (m1 : Manager) (env : StopEnv)
    (pid : Int) (s : List (SendTarget × Sig)) :
    ∃ rest, (stopWait grace m1 env pid s).sends = s ++ rest := by
  unfold stopWait
  by_cases hd : env.doneWithinGrace = true
  · exact ⟨[], by simp [hd]⟩
  · cases hgk : env.groupKill with
    | ok => exact ⟨[(SendTarget.group (-pid), Sig.kill)], by simp [hd, hgk]⟩
    | esrch => exact ⟨[(SendTarget.group (-pid), Sig.kill)], by simp [hd, hgk]⟩
    | fail e =>
      cases hpk : env.procKill
      all_goals
        exact ⟨[(SendTarget.group (-pid), Sig.kill), (SendTarget.single pid, Sig.kill)],
          by simp [hd, hgk, hpk]⟩

theorem stopWait_done (grace : Nat) (m1 : Manager) (env : StopEnv) (pid : Int)
    (s : List (SendTarget × Sig)) (hd : env.doneWithinGrace = true) :
    stopWait grace m1 env pid s = ⟨m1, s, grace, Except.ok ()⟩ := by
  simp [stopWait, hd]

theorem stopWait_timeout_kill_mem (grace : Nat) (m1 : Manager) (env : StopEnv)
    (pid : Int) (s : List (SendTarget × Sig)) (hd : env.doneWithinGrace = false) :
    (SendTarget.group (-pid), Sig.kill) ∈ (stopWait grace m1 env pid s).sends := by
  cases hgk : env.groupKill with
  | ok => simp [stopWait, hd, hgk]
  | esrch => simp [stopWait, hd, hgk]
  | fail e3 =>
    cases hpk : env.procKill <;> simp [stopWait, hd, hgk, hpk]

theorem stopWait_timeout_killed (grace : Nat) (m1 : Manager) (env : StopEnv)
    (pid : Int) (s : List (SendTarget × Sig)) (hd : env.doneWithinGrace = false)
    (h : (∃ e3, env.groupKill = KillResult.fail e3) →
      ∀ e4, ¬ env.procKill = KillResult.fail e4) :
    (stopWait grace m1 env pid s).res = Except.error "process killed after timeout" := by
  cases hgk : env.groupKill with
  | ok => simp [stopWait, hd, hgk]
  | esrch => simp [stopWait, hd, hgk]
  | fail e3 =>
    cases hpk : env.procKill with
    | fail e4 => exact absurd hpk (h ⟨e3, hgk⟩ e4)
    | ok => simp [stopWait, hd, hgk, hpk]
    | esrch => simp [stopWait, hd, hgk, hpk]

theorem stopWait_timeout_killfail (grace : Nat) (m1 : Manager) (env : StopEnv)
    (pid : Int) (s : List (SendTarget × Sig)) (hd : env.doneWithinGrace = false)
    (e3 e4 : String) (hgk : env.groupKill = KillResult.fail e3)
    (hpk : env.procKill = KillResult.fail e4) :
    (stopWait grace m1 env pid s).res =
      Except.error ("failed to kill process: " ++ e4) := by
  simp [stopWait, hd, hgk, hpk]

/-- Signal-send outcomes under which control reaches the wait phase: the
group send succeeded, or it failed (not ESRCH) and the single-process
fallback send succeeded. -/
def reachesWait (env : StopEnv) : Prop :=
  env.groupSend = KillResult.ok ∨
    ((∃ e, env.groupSend = KillResult.fail e) ∧ env.procSend = KillResult.ok)

/-- C2: behaviour of Stop (SIGTERM, 5 s grace) and StopImmediate (SIGINT,
2 s grace) when the guard passes and a process handle exists.  The first
signal goes to the negated process-group id; ESRCH on the group send or on
the single-process fallback send yields success; any other fallback-send
failure yields an error wrapping the cause; if the completion signal fires
within the grace period the call succeeds; if the grace period elapses a
group SIGKILL is sent and the call returns the "process killed after
timeout" error — unless the group kill and the fallback single-process
kill both fail with an error other than ESRCH, in which case the error
wraps that kill failure instead. -/
theorem claim_C2_stop_escalation (m : Manager) (env : StopEnv) (pid : Int)
    (hst : m.status = Status.Running ∨ m.status = Status.Stopping)
    (hcmd : m.cmd = some ⟨some pid⟩) :
    (Manager.Stop m env).graceSeconds = 5 ∧
    (Manager.StopImmediate m env).graceSeconds = 2 ∧
    (Manager.Stop m env).sends.head? = some (SendTarget.group (-pid), Sig.term) ∧
    (Manager.StopImmediate m env).sends.head? =
      some (SendTarget.group (-pid), Sig.intr) ∧
    (env.groupSend = KillResult.esrch →
      (Manager.Stop m env).res = Except.ok () ∧
      (Manager.StopImmediate m env).res = Except.ok ()) ∧
    (∀ e, env.groupSend = KillResult.fail e → env.procSend = KillResult.esrch →
      (Manager.Stop m env).res = Except.ok () ∧
      (Manager.StopImmediate m env).res = Except.ok ()) ∧
    (∀ e e2, env.groupSend = KillResult.fail e → env.procSend = KillResult.fail e2 →
      (Manager.Stop m env).res = Except.error ("failed to send SIGTERM: " ++ e2) ∧
      (Manager.StopImmediate m env).res =
        Except.error ("failed to send SIGINT: " ++ e2)) ∧
    (reachesWait env → env.doneWithinGrace = true →
      (Manager.Stop m env).res = Except.ok () ∧
      (Manager.StopImmediate m env).res = Except.ok ()) ∧
    (reachesWait env → env.doneWithinGrace = false →
      (SendTarget.group (-pid), Sig.kill) ∈ (Manager.Stop m env).sends ∧
      (SendTarget.group (-pid), Sig.kill) ∈ (Manager.StopImmediate m env).sends ∧
      (∀ e3 e4, env.groupKill = KillResult.fail e3 →
        env.procKill = KillResult.fail e4 →
        (Manager.Stop m env).res =
          Except.error ("failed to kill process: " ++ e4) ∧
        (Manager.StopImmediate m env).res =
          Except.error ("failed to kill process: " ++ e4)) ∧
      ((¬ ∃ e3 e4, env.groupKill = KillResult.fail e3 ∧
          env.procKill = KillResult.fail e4) →
        (Manager.Stop m env).res = Except.error "process killed after timeout" ∧
        (Manager.StopImmediate m env).res =
          Except.error "process killed after timeout")) := by
  have hG : ∀ (grace : Nat) (sig : Sig), stopCore grace sig m env =
      (match env.groupSend with
        | KillResult.esrch =>
          ⟨{ m with status := Status.Stopping },
            [(SendTarget.group (-pid), sig)], grace, Except.ok ()⟩
        | KillResult.ok =>
          stopWait grace { m with status := Status.Stopping } env pid
            [(SendTarget.group (-pid), sig)]
        | KillResult.fail _ =>
          match env.procSend with
          | KillResult.esrch =>
            ⟨{ m with status := Status.Stopping },
              [(SendTarget.group (-pid), sig), (SendTarget.single pid, sig)],
              grace, Except.ok ()⟩
          | KillResult.fail e =>
            ⟨{ m with status := Status.Stopping },
              [(SendTarget.group (-pid), sig), (SendTarget.single pid, sig)],
              grace, Except.error ("failed to send " ++ sigName sig ++ ": " ++ e)⟩
          | KillResult.ok =>
            stopWait grace { m with status := Status.Stopping } env pid
              [(SendTarget.group (-pid), sig), (SendTarget.single pid, sig)]) :=
    fun grace sig => stopCore_guarded grace sig m env pid hst hcmd
  refine ⟨?_, ?_, ?_, ?_, ?_, ?_, ?_, ?_, ?_⟩
  · show (stopCore 5 Sig.term m env).graceSeconds = 5
    rw [hG]
    cases hg : env.groupSend with
    | esrch => rfl
    | ok => exact stopWait_grace 5 _ env pid _
    | fail e =>
      cases hp : env.procSend with
      | esrch => rfl
      | fail e2 => rfl
      | ok => exact stopWait_grace 5 _ env pid _
  · show (stopCore 2 Sig.intr m env).graceSeconds = 2
    rw [hG]
    cases hg : env.groupSend with
    | esrch => rfl
    | ok => exact stopWait_grace 2 _ env pid _
    | fail e =>
      cases hp : env.procSend with
      | esrch => rfl
      | fail e2 => rfl
      | ok => exact stopWait_grace 2 _ env pid _
  · show (stopCore 5 Sig.term m env).sends.head? = _
    rw [hG]
    cases hg : env.groupSend with
    | esrch => rfl
    | ok =>
      obtain ⟨rest, hr⟩ := stopWait_sends_extend 5
        { m with status := Status.Stopping } env pid [(SendTarget.group (-pid), Sig.term)]
      rw [hr]
      rfl
    | fail e =>
      cases hp : env.procSend with
      | esrch => rfl
      | fail e2 => rfl
      | ok =>
        obtain ⟨rest, hr⟩ := stopWait_sends_extend 5
          { m with status := Status.Stopping } env pid
          [(SendTarget.group (-pid), Sig.term), (SendTarget.single pid, Sig.term)]
        rw [hr]
        rfl
  · show (stopCore 2 Sig.intr m env).sends.head? = _
    rw [hG]
    cases hg : env.groupSend with
    | esrch => rfl
    | ok =>
      obtain ⟨rest, hr⟩ := stopWait_sends_extend 2
        { m with status := Status.Stopping } env pid [(SendTarget.group (-pid), Sig.intr)]
      rw [hr]
      rfl
    | fail e =>
      cases hp : env.procSend with
      | esrch => rfl
      | fail e2 => rfl
      | ok =>
        obtain ⟨rest, hr⟩ := stopWait_sends_extend 2
          { m with status := Status.Stopping } env pid
          [(SendTarget.group (-pid), Sig.intr), (SendTarget.single pid, Sig.intr)]
        rw [hr]
        rfl
  · intro hg
    constructor
    · show (stopCore 5 Sig.term m env).res = _
      rw [hG, hg]
    · show (stopCore 2 Sig.intr m env).res = _
      rw [hG, hg]
  · intro e hg hp
    constructor
    · show (stopCore 5 Sig.term m env).res = _
      rw [hG, hg, hp]
    · show (stopCore 2 Sig.intr m env).res = _
      rw [hG, hg, hp]
  · intro e e2 hg hp
    constructor
    · show (stopCore 5 Sig.term m env).res = _
      rw [hG, hg, hp]
      rfl
    · show (stopCore 2 Sig.intr m env).res = _
      rw [hG, hg, hp]
      rfl
  · intro hr hd
    have hres : ∀ (grace : Nat) (sig : Sig), (stopCore grace sig m env).res = Except.ok () := by
      intro grace sig
      rcases hr with hok | ⟨⟨e, hg⟩, hp⟩
      · rw [hG, hok]
        exact congrArg StopResult.res (stopWait_done _ _ _ _ _ hd)
      · rw [hG, hg, hp]
        exact congrArg StopResult.res (stopWait_done _ _ _ _ _ hd)
    exact ⟨hres 5 Sig.term, hres 2 Sig.intr⟩
  · intro hr hd
    have hmem : ∀ (grace : Nat) (sig : Sig),
        (SendTarget.group (-pid), Sig.kill) ∈ (stopCore grace sig m env).sends := by
      intro grace sig
      rcases hr with hok | ⟨⟨e, hg⟩, hp⟩
      · rw [hG, hok]
        exact stopWait_timeout_kill_mem _ _ env pid _ hd
      · rw [hG, hg, hp]
        exact stopWait_timeout_kill_mem _ _ env pid _ hd
    refine ⟨hmem 5 Sig.term, hmem 2 Sig.intr, ?_, ?_⟩
    · intro e3 e4 hgk hpk
      have hres : ∀ (grace : Nat) (sig : Sig), (stopCore grace sig m env).res =
          Except.error ("failed to kill process: " ++ e4) := by
        intro grace sig
        rcases hr with hok | ⟨⟨e, hg⟩, hp⟩
        · rw [hG, hok]
          exact stopWait_timeout_killfail _ _ env pid _ hd e3 e4 hgk hpk
        · rw [hG, hg, hp]
          exact stopWait_timeout_killfail _ _ env pid _ hd e3 e4 hgk hpk
      exact ⟨hres 5 Sig.term, hres 2 Sig.intr⟩
    · intro hfail
      have hnof : (∃ e3, env.groupKill = KillResult.fail e3) →
          ∀ e4, ¬ env.procKill = KillResult.fail e4 := by
        intro ⟨e3, hgk⟩ e4 hpk
        exact hfail ⟨e3, e4, hgk, hpk⟩
      have hres : ∀ (grace : Nat) (sig : Sig), (stopCore grace sig m env).res =
          Except.error "process killed after timeout" := by
        intro grace sig
        rcases hr with hok | ⟨⟨e, hg⟩, hp⟩
        · rw [hG, hok]
          exact stopWait_timeout_killed _ _ env pid _ hd hnof
        · rw [hG, hg, hp]
          exact stopWait_timeout_killed _ _ env pid _ hd hnof
      exact ⟨hres 5 Sig.term, hres 2 Sig.intr⟩

theorem claim_C2_stop_escalation_witness :
    ((⟨Status.Running, some ⟨some 7⟩, 0, NewRingBuffer 3, false⟩ : Manager).status =
        Status.Running ∨
      (⟨Status.Running, some ⟨some 7⟩, 0, NewRingBuffer 3, false⟩ : Manager).status =
        Status.Stopping) ∧
    (Manager.Stop ⟨Status.Running, some ⟨some 7⟩, 0, NewRingBuffer 3, false⟩
      ⟨KillResult.esrch, KillResult.ok, true, KillResult.ok, KillResult.ok⟩).res =
        Except.ok () ∧
    (Manager.StopImmediate ⟨Status.Running, some ⟨some 7⟩, 0, NewRingBuffer 3, false⟩
      ⟨KillResult.esrch, KillResult.ok, true, KillResult.ok, KillResult.ok⟩).res =
        Except.ok () ∧
    (Manager.Stop ⟨Status.Running, some ⟨some 7⟩, 0, NewRingBuffer 3, false⟩
      ⟨KillResult.esrch, KillResult.ok, true, KillResult.ok, KillResult.ok⟩).graceSeconds = 5 ∧
    (Manager.Stop ⟨Status.Running, some ⟨some 7⟩, 0, NewRingBuffer 3, false⟩
      ⟨KillResult.ok, KillResult.ok, false, KillResult.fail "EPERM",
        KillResult.fail "EPERM"⟩).res =
      Except.error ("failed to kill process: " ++ "EPERM") ∧
    (Manager.StopImmediate ⟨Status.Running, some ⟨some 7⟩, 0, NewRingBuffer 3, false⟩
      ⟨KillResult.ok, KillResult.ok, false, KillResult.fail "EPERM",
        KillResult.fail "EPERM"⟩).res =
      Except.error ("failed to kill process: " ++ "EPERM") ∧
    (Manager.Stop ⟨Status.Running, some ⟨some 7⟩, 0, NewRingBuffer 3, false⟩
      ⟨KillResult.ok, KillResult.ok, true, KillResult.ok, KillResult.ok⟩).res =
      Except.ok () :=
  ⟨Or.inl rfl,
    ((claim_C2_stop_escalation
      ⟨Status.Running, some ⟨some 7⟩, 0, NewRingBuffer 3, false⟩
      ⟨KillResult.esrch, KillResult.ok, true, KillResult.ok, KillResult.ok⟩
      7 (Or.inl rfl) rfl).2.2.2.2.1 rfl).1,
    ((claim_C2_stop_escalation
      ⟨Status.Running, some ⟨some 7⟩, 0, NewRingBuffer 3, false⟩
      ⟨KillResult.esrch, KillResult.ok, true, KillResult.ok, KillResult.ok⟩
      7 (Or.inl rfl) rfl).2.2.2.2.1 rfl).2,
    (claim_C2_stop_escalation
      ⟨Status.Running, some ⟨some 7⟩, 0, NewRingBuffer 3, false⟩
      ⟨KillResult.esrch, KillResult.ok, true, KillResult.ok, KillResult.ok⟩
      7 (Or.inl rfl) rfl).1,
    (((claim_C2_stop_escalation
      ⟨Status.Running, some ⟨some 7⟩, 0, NewRingBuffer 3, false⟩
      ⟨KillResult.ok, KillResult.ok, false, KillResult.fail "EPERM",
        KillResult.fail "EPERM"⟩
      7 (Or.inl rfl) rfl).2.2.2.2.2.2.2.2 (Or.inl rfl) rfl).2.2.1
      "EPERM" "EPERM" rfl rfl).1,
    (((claim_C2_stop_escalation
      ⟨Status.Running, some ⟨some 7⟩, 0, NewRingBuffer 3, false⟩
      ⟨KillResult.ok, KillResult.ok, false, KillResult.fail "EPERM",
        KillResult.fail "EPERM"⟩
      7 (Or.inl rfl) rfl).2.2.2.2.2.2.2.2 (Or.inl rfl) rfl).2.2.1
      "EPERM" "EPERM" rfl rfl).2,
    ((claim_C2_stop_escalation
      ⟨Status.Running, some ⟨some 7⟩, 0, NewRingBuffer 3, false⟩
      ⟨KillResult.ok, KillResult.ok, true, KillResult.ok, KillResult.ok⟩
      7 (Or.inl rfl) rfl).2.2.2.2.2.2.2.1 (Or.inl rfl) rfl).1⟩

/-- C2 counterexample: with the guard satisfied, the grace period elapsed
(`doneWithinGrace = false`), and both the group SIGKILL and the fallback
single-process kill failing with an error other than ESRCH, `Stop` and
`StopImmediate` both return "failed to kill process: EPERM", which does
not contain the "killed after timeout" text the claim promises for every
timeout path. -/
theorem claim_C2_stop_escalation_counterexample :
    (Manager.Stop ⟨Status.Running, some ⟨some 7⟩, 0, NewRingBuffer 3, false⟩
      ⟨KillResult.ok, KillResult.ok, false, KillResult.fail "EPERM",
        KillResult.fail "EPERM"⟩).res =
      Except.error "failed to kill process: EPERM" ∧
    (Manager.StopImmediate ⟨Status.Running, some ⟨some 7⟩, 0, NewRingBuffer 3, false⟩
      ⟨KillResult.ok, KillResult.ok, false, KillResult.fail "EPERM",
        KillResult.fail "EPERM"⟩).res =
      Except.error "failed to kill process: EPERM" ∧
    ¬ strContains "failed to kill process: EPERM" "killed after timeout" ∧
    (⟨KillResult.ok, KillResult.ok, false, KillResult.fail "EPERM",
      KillResult.fail "EPERM"⟩ : StopEnv).doneWithinGrace = false :=
  ⟨rfl, rfl, by decide, rfl⟩

theorem pause_guarded (m : Manager) (env : StopEnv) (pid : Int)
    (hst : m.status = Status.Running)
    (hcmd : m.cmd = some ⟨some pid⟩) :
    Manager.Pause m env =
      (match env.groupSend with
        | KillResult.esrch =>
          ⟨{ m with status := Status.Paused },
            [(SendTarget.group (-pid), Sig.term)], 5, Except.ok ()⟩
        | KillResult.ok =>
          pauseWait { m with status := Status.Stopping }
            { m with status := Status.Paused } env pid
            [(SendTarget.group (-pid), Sig.term)]
        | KillResult.fail _ =>
          match env.procSend with
          | KillResult.esrch =>
            ⟨{ m with status := Status.Paused },
              [(SendTarget.group (-pid), Sig.term), (SendTarget.single pid, Sig.term)],
              5, Except.ok ()⟩
          | KillResult.fail e =>
            ⟨{ m with status := Status.Stopping },
              [(SendTarget.group (-pid), Sig.term), (SendTarget.single pid, Sig.term)],
              5, Except.error ("failed to send SIGTERM: " ++ e)⟩
          | KillResult.ok =>
            pauseWait { m with status := Status.Stopping }
              { m with status := Status.Paused } env pid
              [(SendTarget.group (-pid), Sig.term), (SendTarget.single pid, Sig.term)]) := by
  unfold Manager.Pause
  rw [if_pos hst, hcmd]
  rfl

theorem pauseWait_done (m1 mP : Manager) (env : StopEnv) (pid : Int)
    (s : List (SendTarget × Sig)) (hd : env.doneWithinGrace = true) :
    pauseWait m1 mP env pid s = ⟨mP, s, 5, Except.ok ()⟩ := by
  simp [pauseWait, hd]

theorem pauseWait_timeout_err (m1 mP : Manager) (env : StopEnv) (pid : Int)
    (s : List (SendTarget × Sig)) (hd : env.doneWithinGrace = false) :
    ∃ msg, (pauseWait m1 mP env pid s).res = Except.error msg := by
  cases hgk : env.groupKill with
  | ok => exact ⟨"process killed after timeout", by simp [pauseWait, hd, hgk]⟩
  | esrch => exact ⟨"process killed after timeout", by simp [pauseWait, hd, hgk]⟩
  | fail e3 =>
    cases hpk : env.procKill with
    | ok => exact ⟨"process killed after timeout", by simp [pauseWait, hd, hgk, hpk]⟩
    | esrch => exact ⟨"process killed after timeout", by simp [pauseWait, hd, hgk, hpk]⟩
    | fail e4 =>
      exact ⟨"failed to kill process: " ++ e4, by simp [pauseWait, hd, hgk, hpk]⟩

/-- C5: every `Pause` call that returns success — including both ESRCH
short-circuits — leaves the supervisor's status `Paused`, not `Stopped`,
even though the completion watcher records `Stopped` when the process
exits. -/
theorem claim_C5_pause_sets_paused (m : Manager) (env : StopEnv)
    (h : (Manager.Pause m env).res = Except.ok ()) :
    (Manager.Pause m env).state.status = Status.Paused ∧
    (Manager.Pause m env).state.GetStatus ≠ Status.Stopped ∧
    (∀ t : Manager, (completionWatcher t).1.status = Status.Stopped) := by
  have hpaused : (Manager.Pause m env).state.status = Status.Paused := by
    by_cases hst : m.status = Status.Running
    · rcases hcm : m.cmd with _ | ⟨_ | pid⟩
      · have hx : Manager.Pause m env = ⟨m, [], 5, Except.error "no process to pause"⟩ := by
          unfold Manager.Pause
          rw [if_pos hst, hcm]
        rw [hx] at h
        exact Except.noConfusion h
      · have hx : Manager.Pause m env = ⟨m, [], 5, Except.error "no process to pause"⟩ := by
          unfold Manager.Pause
          rw [if_pos hst, hcm]
        rw [hx] at h
        exact Except.noConfusion h
      · have hG := pause_guarded m env pid hst hcm
        rw [hG] at h ⊢
        cases hg : env.groupSend with
        | esrch => rfl
        | ok =>
          rw [hg] at h
          by_cases hd : env.doneWithinGrace = true
          · exact congrArg (fun r : StopResult => r.state.status)
              (pauseWait_done _ _ _ _ _ hd)
          · have hd2 : env.doneWithinGrace = false := by
              cases henv : env.doneWithinGrace
              · rfl
              · exact absurd henv hd
            obtain ⟨msg, hmsg⟩ := pauseWait_timeout_err
              { m with status := Status.Stopping } { m with status := Status.Paused }
              env pid [(SendTarget.group (-pid), Sig.term)] hd2
            have h2 : (pauseWait { m with status := Status.Stopping }
                { m with status := Status.Paused } env pid
                [(SendTarget.group (-pid), Sig.term)]).res = Except.ok () := h
            rw [hmsg] at h2
            exact Except.noConfusion h2
        | fail e =>
          rw [hg] at h
          cases hp : env.procSend with
          | esrch => rfl
          | fail e2 =>
            rw [hp] at h
            exact Except.noConfusion h
          | ok =>
            rw [hp] at h
            by_cases hd : env.doneWithinGrace = true
            · exact congrArg (fun r : StopResult => r.state.status)
                (pauseWait_done _ _ _ _ _ hd)
            · have hd2 : env.doneWithinGrace = false := by
                cases henv : env.doneWithinGrace
                · rfl
                · exact absurd henv hd
              obtain ⟨msg, hmsg⟩ := pauseWait_timeout_err
                { m with status := Status.Stopping } { m with status := Status.Paused }
                env pid
                [(SendTarget.group (-pid), Sig.term), (SendTarget.single pid, Sig.term)] hd2
              have h2 : (pauseWait { m with status := Status.Stopping }
                  { m with status := Status.Paused } env pid
                  [(SendTarget.group (-pid), Sig.term), (SendTarget.single pid, Sig.term)]).res =
                    Except.ok () := h
              rw [hmsg] at h2
              exact Except.noConfusion h2
    · have hx : Manager.Pause m env = ⟨m, [], 5, Except.error "process not running"⟩ := by
        unfold Manager.Pause
        rw [if_neg hst]
      rw [hx] at h
      exact Except.noConfusion h
  refine ⟨hpaused, ?_, fun t => rfl⟩
  show (Manager.Pause m env).state.status ≠ Status.Stopped
  rw [hpaused]
  exact fun hc => Status.noConfusion hc

theorem claim_C5_pause_sets_paused_witness :
    (Manager.Pause ⟨Status.Running, some ⟨some 7⟩, 0, NewRingBuffer 3, false⟩
      ⟨KillResult.esrch, KillResult.ok, true, KillResult.ok, KillResult.ok⟩).res =
      Except.ok () ∧
    (Manager.Pause ⟨Status.Running, some ⟨some 7⟩, 0, NewRingBuffer 3, false⟩
      ⟨KillResult.esrch, KillResult.ok, true, KillResult.ok, KillResult.ok⟩).state.status =
      Status.Paused :=
  ⟨rfl,
    (claim_C5_pause_sets_paused
      ⟨Status.Running, some ⟨some 7⟩, 0, NewRingBuffer 3, false⟩
      ⟨KillResult.esrch, KillResult.ok, true, KillResult.ok, KillResult.ok⟩ rfl).1⟩

/-- C3: every state-guard violation is rejected synchronously with the
specified error and changes nothing.  `Start` under `Running`/`Stopping`
returns the "already running" error with the state (status, child handle,
completion-channel generation, log buffer) untouched and no tasks
launched; `Stop`/`StopImmediate` outside `Running`/`Stopping` and `Pause`
outside `Running` return "process not running" with the state untouched
and no signals sent.  The rejected results are literal constants, so they
are independent of the environment: the calls consult no outcome of a
wait or signal, hence cannot block. -/
theorem claim_C3_guard_rejections (m : Manager) (envS : StartEnv) (env : StopEnv) :
    (m.status = Status.Running ∨ m.status = Status.Stopping →
      Manager.Start m envS =
        ⟨m, Except.error "process already running or stopping", [], false⟩ ∧
      strContains "process already running or stopping" "already running") ∧
    (¬ (m.status = Status.Running ∨ m.status = Status.Stopping) →
      Manager.Stop m env = ⟨m, [], 5, Except.error "process not running"⟩ ∧
      Manager.StopImmediate m env = ⟨m, [], 2, Except.error "process not running"⟩) ∧
    (¬ m.status = Status.Running →
      Manager.Pause m env = ⟨m, [], 5, Except.error "process not running"⟩) := by
  refine ⟨?_, ?_, ?_⟩
  · intro h
    refine ⟨?_, by decide⟩
    unfold Manager.Start
    rw [if_pos h]
  · intro h
    constructor
    · show stopCore 5 Sig.term m env = _
      unfold stopCore
      rw [if_neg h]
    · show stopCore 2 Sig.intr m env = _
      unfold stopCore
      rw [if_neg h]
  · intro h
    unfold Manager.Pause
    rw [if_neg h]

theorem claim_C3_guard_rejections_witness :
    Manager.Start ⟨Status.Running, some ⟨some 3⟩, 0, NewRingBuffer 2, false⟩
        ⟨9, none, none, none⟩ =
      ⟨⟨Status.Running, some ⟨some 3⟩, 0, NewRingBuffer 2, false⟩,
        Except.error "process already running or stopping", [], false⟩ ∧
    Manager.Stop ⟨Status.Idle, none, 0, NewRingBuffer 2, false⟩
        ⟨KillResult.ok, KillResult.ok, true, KillResult.ok, KillResult.ok⟩ =
      ⟨⟨Status.Idle, none, 0, NewRingBuffer 2, false⟩, [], 5,
        Except.error "process not running"⟩ ∧
    Manager.Pause ⟨Status.Idle, none, 0, NewRingBuffer 2, false⟩
        ⟨KillResult.ok, KillResult.ok, true, KillResult.ok, KillResult.ok⟩ =
      ⟨⟨Status.Idle, none, 0, NewRingBuffer 2, false⟩, [], 5,
        Except.error "process not running"⟩ :=
  ⟨((claim_C3_guard_rejections ⟨Status.Running, some ⟨some 3⟩, 0, NewRingBuffer 2, false⟩
      ⟨9, none, none, none⟩
      ⟨KillResult.ok, KillResult.ok, true, KillResult.ok, KillResult.ok⟩).1
      (Or.inl rfl)).1,
    ((claim_C3_guard_rejections ⟨Status.Idle, none, 0, NewRingBuffer 2, false⟩
      ⟨9, none, none, none⟩
      ⟨KillResult.ok, KillResult.ok, true, KillResult.ok, KillResult.ok⟩).2.1
      (by simp)).1,
    (claim_C3_guard_rejections ⟨Status.Idle, none, 0, NewRingBuffer 2, false⟩
      ⟨9, none, none, none⟩
      ⟨KillResult.ok, KillResult.ok, true, KillResult.ok, KillResult.ok⟩).2.2
      (by simp)⟩

/-- C4 counterexample: with status `Running` and a nil child handle,
`Pause` returns the error "no process to pause", which does not contain
the text "no process to stop" the claim asserts for all three
stop-family calls. -/
theorem claim_C4_missing_handle_counterexample :
    (Manager.Pause ⟨Status.Running, none, 0, NewRingBuffer 2, false⟩
      ⟨KillResult.ok, KillResult.ok, true, KillResult.ok, KillResult.ok⟩).res =
      Except.error "no process to pause" ∧
    ¬ strContains "no process to pause" "no process to stop" :=
  ⟨rfl, by decide⟩

/-- C4 (amended): when the status guard passes but the child handle is
missing (nil command or nil process), `Stop` and `StopImmediate` return
"no process to stop" while `Pause` returns "no process to pause"; both
messages are distinct from the "process not running" guard error. -/
theorem claim_C4_missing_handle (m : Manager) (env : StopEnv)
    (hst : m.status = Status.Running ∨ m.status = Status.Stopping)
    (hnop : m.cmd = none ∨ ∃ c, m.cmd = some c ∧ c.proc = none) :
    (Manager.Stop m env).res = Except.error "no process to stop" ∧
    (Manager.StopImmediate m env).res = Except.error "no process to stop" ∧
    (m.status = Status.Running →
      (Manager.Pause m env).res = Except.error "no process to pause") ∧
    ¬ strContains "no process to stop" "process not running" ∧
    ¬ strContains "no process to pause" "process not running" := by
  have hcore : ∀ (grace : Nat) (sig : Sig),
      (stopCore grace sig m env).res = Except.error "no process to stop" := by
    intro grace sig
    unfold stopCore
    rw [if_pos hst]
    rcases hnop with hc | ⟨c, hc, hp⟩
    · rw [hc]
    · obtain ⟨cp⟩ := c
      simp only at hp
      rw [hc, hp]
  refine ⟨hcore 5 Sig.term, hcore 2 Sig.intr, ?_, by decide, by decide⟩
  intro hrun
  unfold Manager.Pause
  rw [if_pos hrun]
  rcases hnop with hc | ⟨c, hc, hp⟩
  · rw [hc]
  · obtain ⟨cp⟩ := c
    simp only at hp
    rw [hc, hp]

theorem claim_C4_missing_handle_witness :
    (Manager.Stop ⟨Status.Running, none, 0, NewRingBuffer 2, false⟩
      ⟨KillResult.ok, KillResult.ok, true, KillResult.ok, KillResult.ok⟩).res =
      Except.error "no process to stop" ∧
    (Manager.Pause ⟨Status.Running, none, 0, NewRingBuffer 2, false⟩
      ⟨KillResult.ok, KillResult.ok, true, KillResult.ok, KillResult.ok⟩).res =
      Except.error "no process to pause" :=
  ⟨(claim_C4_missing_handle ⟨Status.Running, none, 0, NewRingBuffer 2, false⟩
      ⟨KillResult.ok, KillResult.ok, true, KillResult.ok, KillResult.ok⟩
      (Or.inl rfl) (Or.inl rfl)).1,
    (claim_C4_missing_handle ⟨Status.Running, none, 0, NewRingBuffer 2, false⟩
      ⟨KillResult.ok, KillResult.ok, true, KillResult.ok, KillResult.ok⟩
      (Or.inl rfl) (Or.inl rfl)).2.2.1 rfl⟩

/-- C7: when the guard passes but creating the stdout pipe, creating the
stderr pipe, or launching the process fails, `Start` returns the
corresponding descriptive error, the observed status is `Idle`, and
neither collector tasks nor the completion watcher are started. -/
theorem claim_C7_start_failure (m : Manager) (env : StartEnv)
    (hst : ¬ (m.status = Status.Running ∨ m.status = Status.Stopping)) :
    (∀ e, env.stdoutPipeErr = some e →
      (Manager.Start m env).res = Except.error ("failed to create stdout pipe: " ++ e) ∧
      (Manager.Start m env).state.GetStatus = Status.Idle ∧
      (Manager.Start m env).collectorTags = [] ∧
      (Manager.Start m env).watcherStarted = false) ∧
    (env.stdoutPipeErr = none → ∀ e, env.stderrPipeErr = some e →
      (Manager.Start m env).res = Except.error ("failed to create stderr pipe: " ++ e) ∧
      (Manager.Start m env).state.GetStatus = Status.Idle ∧
      (Manager.Start m env).collectorTags = [] ∧
      (Manager.Start m env).watcherStarted = false) ∧
    (env.stdoutPipeErr = none → env.stderrPipeErr = none → ∀ e, env.startErr = some e →
      (Manager.Start m env).res = Except.error ("failed to start process: " ++ e) ∧
      (Manager.Start m env).state.GetStatus = Status.Idle ∧
      (Manager.Start m env).collectorTags = [] ∧
      (Manager.Start m env).watcherStarted = false) := by
  refine ⟨?_, ?_, ?_⟩
  · intro e he
    unfold Manager.Start
    rw [if_neg hst, he]
    exact ⟨rfl, rfl, rfl, rfl⟩
  · intro h1 e he
    unfold Manager.Start
    rw [if_neg hst, h1, he]
    exact ⟨rfl, rfl, rfl, rfl⟩
  · intro h1 h2 e he
    unfold Manager.Start
    rw [if_neg hst, h1, h2, he]
    exact ⟨rfl, rfl, rfl, rfl⟩

theorem claim_C7_start_failure_witness :
    (Manager.Start ⟨Status.Idle, none, 0, NewRingBuffer 2, false⟩
      ⟨9, some "boom", none, none⟩).res =
      Except.error "failed to create stdout pipe: boom" ∧
    (Manager.Start ⟨Status.Idle, none, 0, NewRingBuffer 2, false⟩
      ⟨9, some "boom", none, none⟩).state.GetStatus = Status.Idle ∧
    (Manager.Start ⟨Status.Idle, none, 0, NewRingBuffer 2, false⟩
      ⟨9, some "boom", none, none⟩).collectorTags = [] ∧
    (Manager.Start ⟨Status.Idle, none, 0, NewRingBuffer 2, false⟩
      ⟨9, some "boom", none, none⟩).watcherStarted = false :=
  (claim_C7_start_failure ⟨Status.Idle, none, 0, NewRingBuffer 2, false⟩
    ⟨9, some "boom", none, none⟩ (by simp)).1 "boom" rfl

/-- C10: each line a collector reads produces exactly one log-buffer
entry, equal to the stream tag (`"[OUT]"` for stdout, `"[ERR]"` for
stderr, as launched by a successful `Start`) followed by one space and
the raw line; in particular `"hello"` on stdout yields a log line ending
in `"hello"`. -/
theorem claim_C10_stream_tagging (logs : RingBuffer) (tag : String) (ls : List String) :
    Manager.streamOutput logs tag ls = logs.writeAll (ls.map (taggedLine tag)) ∧
    (ls.map (taggedLine tag)).length = ls.length ∧
    (∀ l : String, taggedLine tag l = tag ++ " " ++ l) ∧
    (∀ (m : Manager) (env : StartEnv), (Manager.Start m env).res = Except.ok () →
      (Manager.Start m env).collectorTags = ["[OUT]", "[ERR]"]) ∧
    "hello".data <:+ (taggedLine "[OUT]" "hello").data := by
  refine ⟨?_, by simp, fun l => rfl, ?_, by decide⟩
  · unfold Manager.streamOutput RingBuffer.writeAll
    rw [List.foldl_map]
  · intro m env h
    unfold Manager.Start at h ⊢
    by_cases hg : m.status = Status.Running ∨ m.status = Status.Stopping
    · rw [if_pos hg] at h
      exact Except.noConfusion h
    · rw [if_neg hg] at h ⊢
      cases h1 : env.stdoutPipeErr with
      | some e =>
        rw [h1] at h
        exact Except.noConfusion h
      | none =>
        rw [h1] at h
        cases h2 : env.stderrPipeErr with
        | some e =>
          rw [h2] at h
          exact Except.noConfusion h
        | none =>
          rw [h2] at h
          cases h3 : env.startErr with
          | some e =>
            rw [h3] at h
            exact Except.noConfusion h
          | none => rfl

theorem claim_C10_stream_tagging_witness :
    (Manager.Start ⟨Status.Idle, none, 0, NewRingBuffer 2, false⟩
      ⟨9, none, none, none⟩).res = Except.ok () ∧
    (Manager.Start ⟨Status.Idle, none, 0, NewRingBuffer 2, false⟩
      ⟨9, none, none, none⟩).collectorTags = ["[OUT]", "[ERR]"] ∧
    Manager.streamOutput (NewRingBuffer 2) "[OUT]" ["hello"] =
      (NewRingBuffer 2).writeAll (["hello"].map (taggedLine "[OUT]")) ∧
    taggedLine "[OUT]" "hello" = "[OUT] hello" :=
  ⟨rfl,
    (claim_C10_stream_tagging (NewRingBuffer 2) "[OUT]" ["hello"]).2.2.2.1
      ⟨Status.Idle, none, 0, NewRingBuffer 2, false⟩ ⟨9, none, none, none⟩ rfl,
    (claim_C10_stream_tagging (NewRingBuffer 2) "[OUT]" ["hello"]).1,
    rfl⟩
